import Mathlib

/- Verification of the Compiscript compiler core (semantic analyzer,
   expression evaluator, TAC generator, MIPS generator), shallowly
   embedded from the Python sources.  Association lists model Python
   dicts, plain lists model Python sets, and every stateful method is
   embedded as an explicit state-passing function. -/

/-- Association-list lookup, embedding Python dict access / dict.get. -/
def alistGet? {α : Type} : List (String × α) → String → Option α
  | [], _ => none
  | (k, v) :: rest, key => if k = key then some v else alistGet? rest key

/-- Association-list update, embedding Python dict assignment. -/
def alistSet {α : Type} : List (String × α) → String → α → List (String × α)
  | [], key, v => [(key, v)]
  | (k, w) :: rest, key, v =>
      if k = key then (key, v) :: rest else (k, w) :: alistSet rest key v

/-- Python `key in dict`. -/
def alistHas {α : Type} (m : List (String × α)) (key : String) : Bool :=
  (alistGet? m key).isSome

/-- Python set.add (element order is irrelevant to the claims). -/
def setInsert (l : List String) (x : String) : List String :=
  if l.contains x then l else l ++ [x]

/-- Python set.discard. -/
def setErase (l : List String) (x : String) : List String :=
  l.filter (fun y => !(y == x))

theorem strData_append (a b : String) : (a ++ b).data = a.data ++ b.data := by
  cases a; cases b; rfl

/-- Python s.startswith(p). -/
def pyStartsWith (s p : String) : Bool := p.data.isPrefixOf s.data

/-- Containment of a character pattern in a character list. -/
def listIsInfix (p : List Char) : List Char → Bool
  | [] => p.isEmpty
  | c :: rest => p.isPrefixOf (c :: rest) || listIsInfix p rest

/-- Python substring test (p in s). -/
def pyContains (s p : String) : Bool := listIsInfix p.data s.data

/-- Python `not s.strip()`: the line holds only whitespace. -/
def pyIsBlank (s : String) : Bool := s.data.all Char.isWhitespace

theorem isPrefixOf_cons_false (a b : Char) (as bs : List Char) (h : ¬ a = b) :
    List.isPrefixOf (a :: as) (b :: bs) = false := by
  have hb : (a == b) = false := beq_eq_false_iff_ne.mpr h
  simp [List.isPrefixOf, hb]

/-- Decimal rendering of a natural number, embedding Python str(int).
    Fuel-based structural recursion so that it reduces definitionally. -/
def natReprCore : Nat → Nat → List Char → List Char
  | 0, _, acc => acc
  | fuel + 1, n, acc =>
      let d := Char.ofNat (48 + n % 10)
      if n < 10 then d :: acc else natReprCore fuel (n / 10) (d :: acc)

/-- Decimal string of a natural number. -/
def natRepr (n : Nat) : String := ⟨natReprCore (n + 1) n []⟩

theorem natReprCore_mem (fuel : Nat) :
    ∀ (n : Nat) (acc : List Char) (c : Char),
      c ∈ natReprCore fuel n acc → c.isDigit = true ∨ c ∈ acc := by
  induction fuel with
  | zero => intro n acc c hc; exact Or.inr hc
  | succ fuel ih =>
      intro n acc c hc
      have hd : (Char.ofNat (48 + n % 10)).isDigit = true := by
        have h10 : n % 10 < 10 := Nat.mod_lt _ (by norm_num)
        interval_cases h : (n % 10) <;> decide
      rw [natReprCore] at hc
      by_cases hn : n < 10
      · simp only [hn, if_true] at hc
        rcases List.mem_cons.mp hc with h | h
        · exact Or.inl (h ▸ hd)
        · exact Or.inr h
      · simp only [hn, if_false] at hc
        rcases ih (n / 10) _ c hc with h | h
        · exact Or.inl h
        · rcases List.mem_cons.mp h with h2 | h2
          · exact Or.inl (h2 ▸ hd)
          · exact Or.inr h2

theorem natReprCore_ne_nil (fuel : Nat) :
    ∀ (n : Nat) (acc : List Char), acc ≠ [] → natReprCore fuel n acc ≠ [] := by
  induction fuel with
  | zero => intro n acc h; simpa [natReprCore] using h
  | succ fuel ih =>
      intro n acc h
      rw [natReprCore]
      by_cases hn : n < 10
      · simp [hn]
      · simp only [hn, if_false]
        exact ih (n / 10) _ (by simp)

theorem natRepr_ne_nil (n : Nat) : (natRepr n).data ≠ [] := by
  show natReprCore (n + 1) n [] ≠ []
  rw [natReprCore]
  by_cases hn : n < 10
  · simp [hn]
  · simp only [hn, if_false]
    exact natReprCore_ne_nil n (n / 10) _ (by simp)

theorem natRepr_mem_digit (n : Nat) (c : Char) (hc : c ∈ (natRepr n).data) :
    c.isDigit = true := by
  rcases natReprCore_mem (n + 1) n [] c hc with h | h
  · exact h
  · cases h

/- ===================== Symbol table (component C1 of the spec) ========= -/

namespace CompiSym

/-- SymbolTable.py Scope: a name and an optional parent (None at global). -/
inductive Scope where
  | mk (name : String) (parent : Option Scope)

def Scope.name : Scope → String
  | .mk n _ => n

def Scope.parent : Scope → Option Scope
  | .mk _ p => p

/-- The part of SymbolTable state that exit_scope reads or writes:
    current_scope and the diagnostic list (which it never touches). -/
structure SymbolTableState where
  current_scope : Scope
  errors : List String

/-- SymbolTable.exit_scope: if the current scope has a parent, ascend;
    otherwise the method returns without any effect and without recording
    any diagnostic. -/
def exit_scope (s : SymbolTableState) : SymbolTableState :=
  match s.current_scope.parent with
  | some p => { s with current_scope := p }
  | none => s

/-- The root scope, constructed with parent None as in SymbolTable init. -/
def globalScope : Scope := .mk "global" none

/-- Claim C5 counterexample: calling exit_scope when the current scope is
    the global scope does not fail and does not record any internal error:
    it returns the state unchanged, a silent no-op. -/
theorem c5_exit_scope_at_global_noop :
    exit_scope { current_scope := globalScope, errors := [] }
      = { current_scope := globalScope, errors := [] } := rfl

/-- Claim C5 (amended): at the global scope (no parent) exit_scope is a
    silent no-op; in every other state it makes the parent of the current
    scope current and leaves the error list untouched, so the global scope
    is never exited. -/
theorem c5_exit_scope_behaviour (s : SymbolTableState) :
    (s.current_scope.parent = none → exit_scope s = s) ∧
    (∀ p, s.current_scope.parent = some p →
      (exit_scope s).current_scope = p ∧ (exit_scope s).errors = s.errors) := by
  constructor
  · intro h; unfold exit_scope; rw [h]
  · intro p h; unfold exit_scope; rw [h]; exact ⟨rfl, rfl⟩

/-- Witness for C5 at a concrete block scope sitting below global. -/
theorem c5_exit_scope_behaviour_witness :
    (exit_scope { current_scope := Scope.mk "block" (some globalScope),
                  errors := [] }).current_scope = globalScope :=
  ((c5_exit_scope_behaviour
      { current_scope := Scope.mk "block" (some globalScope), errors := [] }).2
    globalScope rfl).1

end CompiSym

/- ===================== TAC generator (component C4 of the spec) ======== -/

namespace CompiTAC

/-- The TACCodeGenerator state fields used by the claims: instruction
    buffer, per-construct counters, scope bookkeeping and slot tables. -/
structure GenState where
  instructions : List String
  temp_counter : Nat
  label_counter : Nat
  while_counter : Nat
  if_counter : Nat
  use_indentation : Bool
  current_function : Option String
  function_stack : List String
  scope_depth : Int
  loop_labels : List (String × String)
  global_variables : List (String × Int)
  local_variables : List (String × Int)
  current_global_offset : Int
  current_local_offset : Int
  scope_stack : List String
  scope_variables : List (String × List (String × Int))
  current_class : Option String

/-- TACCodeGenerator._get_type_size: byte sizes per type name, default 4. -/
def get_type_size (var_type : String) : Int :=
  if var_type = "integer" then 4
  else if var_type = "float" then 8
  else if var_type = "boolean" then 1
  else if var_type = "string" then 8
  else if var_type = "void" then 0
  else 4

/-- TACCodeGenerator.new_variable_slot: reserve the next global or local
    slot for a declared variable and advance the region offset by the
    size of its type. -/
def new_variable_slot (s : GenState) (var_name var_type : String) :
    (String × Int) × GenState :=
  let type_size := get_type_size var_type
  if s.scope_stack.getLast? = some "global" then
    let offset := s.current_global_offset
    let s1 : GenState := { s with
      global_variables := alistSet s.global_variables var_name offset
      scope_variables := alistSet s.scope_variables "global"
        (alistSet ((alistGet? s.scope_variables "global").getD []) var_name offset)
      current_global_offset := s.current_global_offset + type_size }
    (("G", offset), s1)
  else
    let offset := s.current_local_offset
    let current_scope := (s.scope_stack.getLast?).getD ""
    let scopeMap := (alistGet? s.scope_variables current_scope).getD []
    let s1 : GenState := { s with
      local_variables := alistSet s.local_variables var_name offset
      scope_variables :=
        alistSet s.scope_variables current_scope (alistSet scopeMap var_name offset)
      current_local_offset := s.current_local_offset + type_size }
    (("fp", offset), s1)

/-- A generator state inside a function scope with a fresh frame. -/
def exLocalState : GenState :=
  { instructions := [], temp_counter := 0, label_counter := 0
    while_counter := 0, if_counter := 0, use_indentation := true
    current_function := some "main", function_stack := ["main"]
    scope_depth := 0, loop_labels := []
    global_variables := [], local_variables := []
    current_global_offset := 0, current_local_offset := 0
    scope_stack := ["global", "function_main"]
    scope_variables := [("global", []), ("function_main", [])]
    current_class := none }

/-- A generator state at the global scope with nothing declared yet. -/
def exGlobalState : GenState :=
  { instructions := [], temp_counter := 0, label_counter := 0
    while_counter := 0, if_counter := 0, use_indentation := true
    current_function := none, function_stack := []
    scope_depth := 0, loop_labels := []
    global_variables := [], local_variables := []
    current_global_offset := 0, current_local_offset := 0
    scope_stack := ["global"]
    scope_variables := [("global", [])]
    current_class := none }

/-- Claim C2 counterexample: the byte size of boolean is 1, not 4, so a
    local declared immediately after a boolean sits 1 byte further, not 4:
    after declaring boolean b at fp slot 0, the next local c lands at
    offset 1. -/
theorem c2_boolean_size_counterexample :
    get_type_size "boolean" = 1 ∧
    (decide (get_type_size "boolean" = 4)) = false ∧
    (new_variable_slot exLocalState "b" "boolean").1 = ("fp", 0) ∧
    (new_variable_slot (new_variable_slot exLocalState "b" "boolean").2
        "c" "integer").1 = ("fp", 1) := by
  refine ⟨rfl, by decide, rfl, rfl⟩

/-- Claim C2 (amended): the byte size used to advance the global or frame
    offset is 4 for integer, 1 for boolean, 8 for float, 8 for string and
    0 for void; a declaration at the global scope yields the current
    global offset and advances it by the size, and a declaration in any
    other scope yields the current local offset and advances it by the
    size (so the local after a boolean sits 1 byte further). -/
theorem c2_type_sizes_and_layout :
    get_type_size "integer" = 4 ∧ get_type_size "boolean" = 1 ∧
    get_type_size "float" = 8 ∧ get_type_size "string" = 8 ∧
    get_type_size "void" = 0 ∧
    (∀ s name t, s.scope_stack.getLast? = some "global" →
      (new_variable_slot s name t).1 = ("G", s.current_global_offset) ∧
      (new_variable_slot s name t).2.current_global_offset
        = s.current_global_offset + get_type_size t) ∧
    (∀ s name t, ¬ s.scope_stack.getLast? = some "global" →
      (new_variable_slot s name t).1 = ("fp", s.current_local_offset) ∧
      (new_variable_slot s name t).2.current_local_offset
        = s.current_local_offset + get_type_size t) := by
  refine ⟨rfl, rfl, rfl, rfl, rfl, ?_, ?_⟩
  · intro s name t h
    unfold new_variable_slot
    rw [if_pos h]
    exact ⟨rfl, rfl⟩
  · intro s name t h
    unfold new_variable_slot
    rw [if_neg h]
    exact ⟨rfl, rfl⟩

/-- Witness for C2 at the concrete global state: declaring a boolean at
    the top level binds G at offset 0 and advances the global offset by
    the boolean size. -/
theorem c2_type_sizes_and_layout_witness :
    (new_variable_slot exGlobalState "g" "boolean").1
      = ("G", exGlobalState.current_global_offset) ∧
    (new_variable_slot exGlobalState "g" "boolean").2.current_global_offset
      = exGlobalState.current_global_offset + get_type_size "boolean" :=
  c2_type_sizes_and_layout.2.2.2.2.2.1 exGlobalState "g" "boolean" rfl

/-- Python truthiness of the optional current_function string: None and
    the empty string are falsy. -/
def isTruthyStr : Option String → Bool
  | some s => !s.isEmpty
  | none => false

/-- Python s.endswith for a colon, read off the head of the reversed
    character list. -/
def pyEndsWithColon (s : String) : Bool :=
  decide (s.data.reverse.head? = some ':')

/-- TACCodeGenerator.emit: blank lines are dropped; inside a function
    (indentation on and a truthy current_function) labels, comments and
    FUNCTION markers stay flush left while every other instruction gains
    one tab; outside a function lines are appended verbatim. -/
def emit (s : GenState) (instruction : String) : GenState :=
  if pyIsBlank instruction then s
  else if s.use_indentation && isTruthyStr s.current_function then
    if pyEndsWithColon instruction || pyStartsWith instruction "//"
        || pyStartsWith instruction "FUNCTION"
        || pyStartsWith instruction "END FUNCTION" then
      { s with instructions := s.instructions ++ [instruction] }
    else
      { s with instructions := s.instructions ++ ["\t" ++ instruction] }
  else { s with instructions := s.instructions ++ [instruction] }

/-- TACCodeGenerator.emit_label. -/
def emit_label (s : GenState) (label : String) : GenState :=
  emit s (label ++ ":")

/-- TACCodeGenerator.emit_goto. -/
def emit_goto (s : GenState) (label : String) : GenState :=
  emit s ("GOTO " ++ label)

theorem strAppend_assoc (a b c : String) : a ++ b ++ c = a ++ (b ++ c) := by
  cases a with
  | mk la =>
      cases b with
      | mk lb =>
          cases c with
          | mk lc =>
              show String.mk ((la ++ lb) ++ lc) = String.mk (la ++ (lb ++ lc))
              rw [List.append_assoc]

theorem pyIsBlank_false_head (s : String) (c : Char) (r : List Char)
    (hs : s.data = c :: r) (hc : c.isWhitespace = false) :
    pyIsBlank s = false := by
  unfold pyIsBlank
  rw [hs]
  simp [List.all_cons, hc]

theorem pyStartsWith_ne_head (s pat : String) (c : Char) (r : List Char)
    (hs : s.data = c :: r) (a : Char) (r2 : List Char) (hpat : pat.data = a :: r2)
    (hne : ¬ a = c) : pyStartsWith s pat = false := by
  unfold pyStartsWith
  rw [hs, hpat]
  exact isPrefixOf_cons_false a c r2 r hne

theorem data_head_append (x : String) (cx : Char) (rx : List Char)
    (hx : x.data = cx :: rx) (y : String) :
    (x ++ y).data = cx :: (rx ++ y.data) := by
  rw [strData_append, hx]
  rfl

theorem endsColon_append_colon (x : String) :
    pyEndsWithColon (x ++ ":") = true := by
  unfold pyEndsWithColon
  rw [strData_append, List.reverse_append]
  rfl

theorem endsColon_natRepr (x : String) (k : Nat) :
    pyEndsWithColon (x ++ natRepr k) = false := by
  unfold pyEndsWithColon
  rw [strData_append, List.reverse_append]
  obtain ⟨c, rest, hcr⟩ :
      ∃ c rest, (natRepr k).data.reverse = c :: rest := by
    cases h : (natRepr k).data.reverse with
    | nil =>
        exfalso
        have h2 := natRepr_ne_nil k
        rw [← List.reverse_reverse (natRepr k).data, h] at h2
        exact h2 rfl
    | cons c rest => exact ⟨c, rest, rfl⟩
  rw [hcr]
  have hcmem : c ∈ (natRepr k).data := by
    have hm : c ∈ (natRepr k).data.reverse := by
      rw [hcr]; exact List.mem_cons_self c rest
    exact List.mem_reverse.mp hm
  have hdig := natRepr_mem_digit k c hcmem
  have hne : ¬ (c = ':') := by
    intro h
    rw [h] at hdig
    exact absurd hdig (by decide)
  show decide (((c :: rest) ++ x.data.reverse).head? = some ':') = false
  rw [List.cons_append, List.head?_cons]
  exact decide_eq_false (fun h => hne (Option.some.inj h))

/-- emit touches only the instruction buffer. -/
theorem emit_only_instructions (s : GenState) (i : String) :
    ∃ l, emit s i = { s with instructions := l } := by
  unfold emit
  split
  · exact ⟨s.instructions, rfl⟩
  · split
    · split
      · exact ⟨_, rfl⟩
      · exact ⟨_, rfl⟩
    · exact ⟨_, rfl⟩

theorem emit_preserves (s : GenState) (i : String) :
    (emit s i).temp_counter = s.temp_counter ∧
    (emit s i).while_counter = s.while_counter ∧
    (emit s i).if_counter = s.if_counter ∧
    (emit s i).loop_labels = s.loop_labels ∧
    (emit s i).use_indentation = s.use_indentation ∧
    (emit s i).current_function = s.current_function ∧
    (emit s i).current_class = s.current_class ∧
    (emit s i).function_stack = s.function_stack ∧
    (emit s i).scope_depth = s.scope_depth := by
  obtain ⟨l, h⟩ := emit_only_instructions s i
  rw [h]
  exact ⟨rfl, rfl, rfl, rfl, rfl, rfl, rfl, rfl, rfl⟩

/-- A label line is appended flush left, in or out of a function. -/
theorem emit_label_eq (s : GenState) (lab : String) :
    emit_label s lab = { s with instructions := s.instructions ++ [lab ++ ":"] } := by
  unfold emit_label emit
  have hnb : pyIsBlank (lab ++ ":") = false := by
    unfold pyIsBlank
    rw [strData_append, List.all_append]
    have h2 : (":".data.all Char.isWhitespace) = false := by decide
    rw [h2, Bool.and_false]
  have hcol := endsColon_append_colon lab
  simp [hnb, hcol]

/-- A non-blank, non-label, non-comment, non-marker line gains one tab
    inside a function. -/
theorem emit_plain_indent (s : GenState) (instr : String)
    (hind : s.use_indentation = true) (htr : isTruthyStr s.current_function = true)
    (hnb : pyIsBlank instr = false) (hcol : pyEndsWithColon instr = false)
    (h1 : pyStartsWith instr "//" = false)
    (h2 : pyStartsWith instr "FUNCTION" = false)
    (h3 : pyStartsWith instr "END FUNCTION" = false) :
    emit s instr = { s with instructions := s.instructions ++ ["\t" ++ instr] } := by
  unfold emit
  simp [hind, htr, hnb, hcol, h1, h2, h3]

/-- TACCodeGenerator.enterWhileStatement, with visit_expression
    abstracted as evalCond: the condition lowering appends its own
    instructions and returns the operand holding the condition value.
    The while counter provides the construct id, the start label is
    placed, the condition is evaluated, the strictly-greater-than-zero
    jump and the exit jump are emitted, the true label is placed and the
    label pair is pushed for exitWhileStatement. -/
def enterWhileStatement (evalCond : GenState → GenState × String)
    (s : GenState) : GenState :=
  let while_id := s.while_counter
  let s1 : GenState := { s with while_counter := s.while_counter + 1 }
  let start_label := "STARTWHILE_" ++ natRepr while_id
  let true_label := "LABEL_TRUE_" ++ natRepr while_id
  let end_label := "ENDWHILE_" ++ natRepr while_id
  let s2 := emit_label s1 start_label
  let cr := evalCond s2
  let s4 := emit cr.1 ("IF " ++ cr.2 ++ " > 0 GOTO " ++ true_label)
  let s5 := emit_goto s4 end_label
  let s6 := emit_label s5 true_label
  { s6 with loop_labels := s6.loop_labels ++ [(start_label, end_label)] }

/-- TACCodeGenerator.exitWhileStatement: pop the pending label pair,
    jump back to the loop start and place the end label. -/
def exitWhileStatement (s : GenState) : GenState :=
  match s.loop_labels.getLast? with
  | none => s
  | some labels =>
      let s1 : GenState := { s with loop_labels := s.loop_labels.dropLast }
      let s2 := emit s1 ("GOTO " ++ labels.1)
      emit_label s2 labels.2

theorem classify_goto (lab : String) (k : Nat) :
    pyIsBlank ("GOTO " ++ (lab ++ natRepr k)) = false ∧
    pyEndsWithColon ("GOTO " ++ (lab ++ natRepr k)) = false ∧
    pyStartsWith ("GOTO " ++ (lab ++ natRepr k)) "//" = false ∧
    pyStartsWith ("GOTO " ++ (lab ++ natRepr k)) "FUNCTION" = false ∧
    pyStartsWith ("GOTO " ++ (lab ++ natRepr k)) "END FUNCTION" = false := by
  have hd : ("GOTO " ++ (lab ++ natRepr k)).data
      = 'G' :: (['O', 'T', 'O', ' '] ++ (lab ++ natRepr k).data) :=
    data_head_append "GOTO " 'G' ['O', 'T', 'O', ' '] rfl _
  refine ⟨pyIsBlank_false_head _ 'G' _ hd (by decide), ?_,
    pyStartsWith_ne_head _ _ 'G' _ hd '/' _ rfl (by decide),
    pyStartsWith_ne_head _ _ 'G' _ hd 'F' _ rfl (by decide),
    pyStartsWith_ne_head _ _ 'G' _ hd 'E' _ rfl (by decide)⟩
  have hassoc : "GOTO " ++ (lab ++ natRepr k) = ("GOTO " ++ lab) ++ natRepr k :=
    (strAppend_assoc "GOTO " lab (natRepr k)).symm
  rw [hassoc]
  exact endsColon_natRepr _ k

theorem classify_if_line (t tl0 : String) (k : Nat) :
    pyIsBlank ("IF " ++ t ++ " > 0 GOTO " ++ (tl0 ++ natRepr k)) = false ∧
    pyEndsWithColon ("IF " ++ t ++ " > 0 GOTO " ++ (tl0 ++ natRepr k)) = false ∧
    pyStartsWith ("IF " ++ t ++ " > 0 GOTO " ++ (tl0 ++ natRepr k)) "//" = false ∧
    pyStartsWith ("IF " ++ t ++ " > 0 GOTO " ++ (tl0 ++ natRepr k)) "FUNCTION"
      = false ∧
    pyStartsWith ("IF " ++ t ++ " > 0 GOTO " ++ (tl0 ++ natRepr k)) "END FUNCTION"
      = false := by
  have h1 : ("IF " ++ t).data = 'I' :: (['F', ' '] ++ t.data) :=
    data_head_append "IF " 'I' ['F', ' '] rfl t
  have h2 : (("IF " ++ t) ++ " > 0 GOTO ").data
      = 'I' :: ((['F', ' '] ++ t.data) ++ " > 0 GOTO ".data) :=
    data_head_append _ 'I' _ h1 _
  have hd : ((("IF " ++ t) ++ " > 0 GOTO ") ++ (tl0 ++ natRepr k)).data
      = 'I' :: (((['F', ' '] ++ t.data) ++ " > 0 GOTO ".data)
          ++ (tl0 ++ natRepr k).data) :=
    data_head_append _ 'I' _ h2 _
  refine ⟨pyIsBlank_false_head _ 'I' _ hd (by decide), ?_,
    pyStartsWith_ne_head _ _ 'I' _ hd '/' _ rfl (by decide),
    pyStartsWith_ne_head _ _ 'I' _ hd 'F' _ rfl (by decide),
    pyStartsWith_ne_head _ _ 'I' _ hd 'E' _ rfl (by decide)⟩
  have hassoc : (("IF " ++ t) ++ " > 0 GOTO ") ++ (tl0 ++ natRepr k)
      = ((("IF " ++ t) ++ " > 0 GOTO ") ++ tl0) ++ natRepr k :=
    (strAppend_assoc _ tl0 (natRepr k)).symm
  show pyEndsWithColon ((("IF " ++ t) ++ " > 0 GOTO ") ++ (tl0 ++ natRepr k))
      = false
  rw [hassoc]
  exact endsColon_natRepr _ k

theorem while_emit_segment (st : GenState) (ifline ELs TLs : String)
    (hind : st.use_indentation = true) (htr : isTruthyStr st.current_function = true)
    (hnb1 : pyIsBlank ifline = false) (hcol1 : pyEndsWithColon ifline = false)
    (ha1 : pyStartsWith ifline "//" = false)
    (hb1 : pyStartsWith ifline "FUNCTION" = false)
    (hc1 : pyStartsWith ifline "END FUNCTION" = false)
    (hnb2 : pyIsBlank ("GOTO " ++ ELs) = false)
    (hcol2 : pyEndsWithColon ("GOTO " ++ ELs) = false)
    (ha2 : pyStartsWith ("GOTO " ++ ELs) "//" = false)
    (hb2 : pyStartsWith ("GOTO " ++ ELs) "FUNCTION" = false)
    (hc2 : pyStartsWith ("GOTO " ++ ELs) "END FUNCTION" = false) :
    emit_label (emit (emit st ifline) ("GOTO " ++ ELs)) TLs
      = { st with instructions :=
            (((st.instructions ++ ["\t" ++ ifline]) ++ ["\t" ++ ("GOTO " ++ ELs)])
              ++ [TLs ++ ":"]) } := by
  rw [emit_plain_indent st ifline hind htr hnb1 hcol1 ha1 hb1 hc1]
  rw [emit_plain_indent
    { st with instructions := st.instructions ++ ["\t" ++ ifline] }
    ("GOTO " ++ ELs) hind htr hnb2 hcol2 ha2 hb2 hc2]
  rw [emit_label_eq]

/-- Claim C8: for the while statement entered at counter value w the
    generator emits, in order, the label STARTWHILE_w, the condition
    code, the strictly-greater-than-zero test jumping to LABEL_TRUE_w,
    the jump to ENDWHILE_w, the label LABEL_TRUE_w, the body, the jump
    back to STARTWHILE_w and the label ENDWHILE_w; the while counter
    advances by one while the if counter is untouched by both handlers,
    and the pushed label pair is popped again.  The truth test emitted is
    the greater-than-zero form, as the single conditional line shows. -/
theorem c8_while_lowering
    (s : GenState) (evalCond : GenState → GenState × String)
    (body : GenState → GenState) (fn : String) (C B : List String) (t : String)
    (hind : s.use_indentation = true)
    (hfn : s.current_function = some fn) (hfne : fn.isEmpty = false)
    (hcond : ∀ st : GenState,
      (evalCond st).1.instructions = st.instructions ++ C ∧
      (evalCond st).2 = t ∧
      (evalCond st).1.while_counter = st.while_counter ∧
      (evalCond st).1.if_counter = st.if_counter ∧
      (evalCond st).1.loop_labels = st.loop_labels ∧
      (evalCond st).1.use_indentation = st.use_indentation ∧
      (evalCond st).1.current_function = st.current_function)
    (hbody : ∀ st : GenState,
      (body st).instructions = st.instructions ++ B ∧
      (body st).loop_labels = st.loop_labels ∧
      (body st).use_indentation = st.use_indentation ∧
      (body st).current_function = st.current_function) :
    (exitWhileStatement (body (enterWhileStatement evalCond s))).instructions
      = s.instructions
        ++ [("STARTWHILE_" ++ natRepr s.while_counter) ++ ":"]
        ++ C
        ++ ["\t" ++ ("IF " ++ t ++ " > 0 GOTO "
              ++ ("LABEL_TRUE_" ++ natRepr s.while_counter)),
            "\t" ++ ("GOTO " ++ ("ENDWHILE_" ++ natRepr s.while_counter)),
            ("LABEL_TRUE_" ++ natRepr s.while_counter) ++ ":"]
        ++ B
        ++ ["\t" ++ ("GOTO " ++ ("STARTWHILE_" ++ natRepr s.while_counter)),
            ("ENDWHILE_" ++ natRepr s.while_counter) ++ ":"] ∧
    (enterWhileStatement evalCond s).while_counter = s.while_counter + 1 ∧
    (enterWhileStatement evalCond s).if_counter = s.if_counter ∧
    (exitWhileStatement (body (enterWhileStatement evalCond s))).if_counter
      = (body (enterWhileStatement evalCond s)).if_counter ∧
    (exitWhileStatement (body (enterWhileStatement evalCond s))).loop_labels
      = s.loop_labels := by
  have hS2 : emit_label { s with while_counter := s.while_counter + 1 }
      ("STARTWHILE_" ++ natRepr s.while_counter)
      = { s with
          while_counter := s.while_counter + 1,
          instructions := (s.instructions
            ++ [("STARTWHILE_" ++ natRepr s.while_counter) ++ ":"]) } := by
    rw [emit_label_eq]
  obtain ⟨hC3, hT3, hW3, hI3, hL3, hU3, hF3⟩ := hcond
    { s with
      while_counter := s.while_counter + 1,
      instructions := (s.instructions
        ++ [("STARTWHILE_" ++ natRepr s.while_counter) ++ ":"]) }
  have hU3b : (evalCond { s with
      while_counter := s.while_counter + 1,
      instructions := (s.instructions
        ++ [("STARTWHILE_" ++ natRepr s.while_counter) ++ ":"]) }).1.use_indentation
      = true := by rw [hU3]; exact hind
  have hF3b : (evalCond { s with
      while_counter := s.while_counter + 1,
      instructions := (s.instructions
        ++ [("STARTWHILE_" ++ natRepr s.while_counter) ++ ":"]) }).1.current_function
      = some fn := by rw [hF3]; exact hfn
  have htr3 : isTruthyStr (evalCond { s with
      while_counter := s.while_counter + 1,
      instructions := (s.instructions
        ++ [("STARTWHILE_" ++ natRepr s.while_counter) ++ ":"]) }).1.current_function
      = true := by
    rw [hF3b]
    show (!fn.isEmpty) = true
    rw [hfne]
    rfl
  obtain ⟨hnb1, hcol1, ha1, hb1, hc1⟩ := classify_if_line t "LABEL_TRUE_" s.while_counter
  obtain ⟨hnb2, hcol2, ha2, hb2, hc2⟩ := classify_goto "ENDWHILE_" s.while_counter
  obtain ⟨hnb3, hcol3, ha3, hb3, hc3⟩ := classify_goto "STARTWHILE_" s.while_counter
  have hE : enterWhileStatement evalCond s
      = { (evalCond { s with
            while_counter := s.while_counter + 1,
            instructions := (s.instructions
              ++ [("STARTWHILE_" ++ natRepr s.while_counter) ++ ":"]) }).1 with
          instructions :=
            (((evalCond { s with
                while_counter := s.while_counter + 1,
                instructions := (s.instructions
                  ++ [("STARTWHILE_" ++ natRepr s.while_counter) ++ ":"]) }).1.instructions
              ++ ["\t" ++ ("IF " ++ t ++ " > 0 GOTO "
                    ++ ("LABEL_TRUE_" ++ natRepr s.while_counter))])
              ++ ["\t" ++ ("GOTO " ++ ("ENDWHILE_" ++ natRepr s.while_counter))])
              ++ [("LABEL_TRUE_" ++ natRepr s.while_counter) ++ ":"],
          loop_labels :=
            (evalCond { s with
              while_counter := s.while_counter + 1,
              instructions := (s.instructions
                ++ [("STARTWHILE_" ++ natRepr s.while_counter) ++ ":"]) }).1.loop_labels
              ++ [("STARTWHILE_" ++ natRepr s.while_counter,
                   "ENDWHILE_" ++ natRepr s.while_counter)] } := by
    simp only [enterWhileStatement, emit_goto]
    rw [hS2, hT3]
    rw [while_emit_segment _ _ _ _ hU3b htr3 hnb1 hcol1 ha1 hb1 hc1
      hnb2 hcol2 ha2 hb2 hc2]
  have hEwc : (enterWhileStatement evalCond s).while_counter
      = s.while_counter + 1 := by rw [hE]; exact hW3
  have hEif : (enterWhileStatement evalCond s).if_counter = s.if_counter := by
    rw [hE]; exact hI3
  have hEll : (enterWhileStatement evalCond s).loop_labels
      = s.loop_labels
        ++ [("STARTWHILE_" ++ natRepr s.while_counter,
             "ENDWHILE_" ++ natRepr s.while_counter)] := by
    rw [hE]
    show (evalCond _).1.loop_labels ++ _ = _
    rw [hL3]
  have hEind : (enterWhileStatement evalCond s).use_indentation = true := by
    rw [hE]; exact hU3b
  have hEcf : (enterWhileStatement evalCond s).current_function = some fn := by
    rw [hE]; exact hF3b
  have hEinstr : (enterWhileStatement evalCond s).instructions
      = ((((s.instructions
          ++ [("STARTWHILE_" ++ natRepr s.while_counter) ++ ":"]) ++ C)
          ++ ["\t" ++ ("IF " ++ t ++ " > 0 GOTO "
                ++ ("LABEL_TRUE_" ++ natRepr s.while_counter))])
          ++ ["\t" ++ ("GOTO " ++ ("ENDWHILE_" ++ natRepr s.while_counter))])
          ++ [("LABEL_TRUE_" ++ natRepr s.while_counter) ++ ":"] := by
    rw [hE]
    show (((evalCond _).1.instructions ++ _) ++ _) ++ _ = _
    rw [hC3]
  obtain ⟨hXinstr, hXll, hXind, hXcf⟩ :=
    hbody (enterWhileStatement evalCond s)
  have hXindb : (body (enterWhileStatement evalCond s)).use_indentation = true := by
    rw [hXind, hEind]
  have hXcfb : (body (enterWhileStatement evalCond s)).current_function
      = some fn := by rw [hXcf, hEcf]
  have htrX : isTruthyStr
      (body (enterWhileStatement evalCond s)).current_function = true := by
    rw [hXcfb]
    show (!fn.isEmpty) = true
    rw [hfne]
    rfl
  have hXllb : (body (enterWhileStatement evalCond s)).loop_labels
      = s.loop_labels
        ++ [("STARTWHILE_" ++ natRepr s.while_counter,
             "ENDWHILE_" ++ natRepr s.while_counter)] := by
    rw [hXll, hEll]
  have hmatch : (body (enterWhileStatement evalCond s)).loop_labels.getLast?
      = some ("STARTWHILE_" ++ natRepr s.while_counter,
              "ENDWHILE_" ++ natRepr s.while_counter) := by
    rw [hXllb]; exact List.getLast?_concat _
  have hdrop : (body (enterWhileStatement evalCond s)).loop_labels.dropLast
      = s.loop_labels := by
    rw [hXllb]; exact List.dropLast_concat
  have hexit : exitWhileStatement (body (enterWhileStatement evalCond s))
      = { body (enterWhileStatement evalCond s) with
          loop_labels := s.loop_labels,
          instructions :=
            (((body (enterWhileStatement evalCond s)).instructions
              ++ ["\t" ++ ("GOTO "
                    ++ ("STARTWHILE_" ++ natRepr s.while_counter))])
              ++ [("ENDWHILE_" ++ natRepr s.while_counter) ++ ":"]) } := by
    show (match (body (enterWhileStatement evalCond s)).loop_labels.getLast? with
      | none => body (enterWhileStatement evalCond s)
      | some labels =>
          emit_label
            (emit { body (enterWhileStatement evalCond s) with
                loop_labels :=
                  (body (enterWhileStatement evalCond s)).loop_labels.dropLast }
              ("GOTO " ++ labels.1)) labels.2) = _
    rw [hmatch]
    show emit_label
        (emit { body (enterWhileStatement evalCond s) with
            loop_labels :=
              (body (enterWhileStatement evalCond s)).loop_labels.dropLast }
          ("GOTO " ++ ("STARTWHILE_" ++ natRepr s.while_counter)))
        ("ENDWHILE_" ++ natRepr s.while_counter) = _
    rw [hdrop]
    rw [emit_plain_indent
      { body (enterWhileStatement evalCond s) with loop_labels := s.loop_labels }
      ("GOTO " ++ ("STARTWHILE_" ++ natRepr s.while_counter))
      hXindb htrX hnb3 hcol3 ha3 hb3 hc3]
    rw [emit_label_eq]
  refine ⟨?_, hEwc, hEif, ?_, ?_⟩
  · rw [hexit]
    show ((body (enterWhileStatement evalCond s)).instructions ++ _) ++ _ = _
    rw [hXinstr, hEinstr]
    simp [List.append_assoc]
  · rw [hexit]
  · rw [hexit]

/-- A concrete condition lowering for the witness: one comparison line
    into temporary t0. -/
def c8CondCode : List String := ["\tt0 := fp[0] <= 3"]

def c8Cond (st : GenState) : GenState × String :=
  ({ st with instructions := st.instructions ++ c8CondCode }, "t0")

/-- A concrete body emission for the witness: one assignment line. -/
def c8BodyCode : List String := ["\tfp[0] := t1"]

def c8Body (st : GenState) : GenState :=
  { st with instructions := st.instructions ++ c8BodyCode }

/-- Witness for C8 at the concrete in-function state with while counter
    zero, a one-line condition and a one-line body. -/
theorem c8_while_lowering_witness :
    (exitWhileStatement (c8Body (enterWhileStatement c8Cond exLocalState))).instructions
      = exLocalState.instructions
        ++ [("STARTWHILE_" ++ natRepr exLocalState.while_counter) ++ ":"]
        ++ c8CondCode
        ++ ["\t" ++ ("IF " ++ "t0" ++ " > 0 GOTO "
              ++ ("LABEL_TRUE_" ++ natRepr exLocalState.while_counter)),
            "\t" ++ ("GOTO " ++ ("ENDWHILE_" ++ natRepr exLocalState.while_counter)),
            ("LABEL_TRUE_" ++ natRepr exLocalState.while_counter) ++ ":"]
        ++ c8BodyCode
        ++ ["\t" ++ ("GOTO " ++ ("STARTWHILE_" ++ natRepr exLocalState.while_counter)),
            ("ENDWHILE_" ++ natRepr exLocalState.while_counter) ++ ":"] ∧
    (enterWhileStatement c8Cond exLocalState).while_counter
      = exLocalState.while_counter + 1 ∧
    (enterWhileStatement c8Cond exLocalState).if_counter
      = exLocalState.if_counter ∧
    (exitWhileStatement (c8Body (enterWhileStatement c8Cond exLocalState))).if_counter
      = (c8Body (enterWhileStatement c8Cond exLocalState)).if_counter ∧
    (exitWhileStatement (c8Body (enterWhileStatement c8Cond exLocalState))).loop_labels
      = exLocalState.loop_labels :=
  c8_while_lowering exLocalState c8Cond c8Body "main" c8CondCode c8BodyCode "t0"
    rfl rfl rfl
    (fun _ => ⟨rfl, rfl, rfl, rfl, rfl, rfl, rfl⟩)
    (fun _ => ⟨rfl, rfl, rfl, rfl⟩)

/-- TACCodeGenerator.new_temp: hand out t followed by the counter value
    and advance the counter. -/
def new_temp (s : GenState) : String × GenState :=
  ("t" ++ natRepr s.temp_counter, { s with temp_counter := s.temp_counter + 1 })

/-- A run of consecutive new_temp calls, collecting the names. -/
def newTempRun : Nat → GenState → List String × GenState
  | 0, s => ([], s)
  | n + 1, s =>
      let r := new_temp s
      let rest := newTempRun n r.2
      (r.1 :: rest.1, rest.2)

/-- The parse-tree pieces enterFunctionDeclaration reads: the function
    identifier (absent when the node is malformed) and the parameter
    names in order. -/
structure FunctionDeclCtx where
  identifier : Option String
  params : List String

/-- TACCodeGenerator.enterFunctionDeclaration: push the function scope,
    clear the frame bookkeeping, RESET the temporary counter, assign
    parameter slots fp[-1], fp[-2], ... (with this at fp[-1] shifting the
    explicit parameters when inside a class), emit the FUNCTION marker
    and apply indent_in. -/
def enterFunctionDeclaration (ctx : FunctionDeclCtx) (s : GenState) : GenState :=
  match ctx.identifier with
  | none => s
  | some func_name =>
      let scope_name := "function_" ++ func_name
      let startAcc : List (String × Int) × Int :=
        if isTruthyStr s.current_class then ([("this", -1)], -2) else ([], -1)
      let slots := ctx.params.foldl
        (fun (acc : List (String × Int) × Int) p =>
          (acc.1 ++ [(p, acc.2)], acc.2 - 1)) startAcc
      let s1 : GenState := { s with
        current_function := some func_name
        function_stack := s.function_stack ++ [func_name]
        scope_depth := s.scope_depth + 1
        scope_stack := s.scope_stack ++ [scope_name]
        scope_variables := alistSet s.scope_variables scope_name slots.1
        current_local_offset := 0
        local_variables := slots.1
        temp_counter := 0 }
      let s2 := emit s1 ("FUNCTION " ++ func_name ++ ":")
      { s2 with
        current_function := s2.function_stack.getLast?
        scope_depth := s2.scope_depth - 1 }

/-- The parse-tree piece enterInitMethod reads: the constructor
    parameter names. -/
structure InitMethodCtx where
  params : List String

/-- TACCodeGenerator.enterInitMethod: inside a class, push the
    constructor scope, reserve fp[0] for this and fp[4], fp[8], ... for
    the parameters, emit the FUNCTION init marker and apply indent_in.
    Unlike enterFunctionDeclaration it never touches the temporary
    counter. -/
def enterInitMethod (ctx : InitMethodCtx) (s : GenState) : GenState :=
  if isTruthyStr s.current_class = false then s
  else
    let constructor_name := (s.current_class.getD "") ++ "_init"
    let scope_name := "function_" ++ constructor_name
    let plist := ((List.range ctx.params.length).zip ctx.params).map
      (fun ip => (ip.2, ((ip.1 : Int) + 1) * 4))
    let s1 : GenState := { s with
      current_function := some constructor_name
      function_stack := s.function_stack ++ [constructor_name]
      scope_depth := s.scope_depth + 1
      scope_stack := s.scope_stack ++ [scope_name]
      scope_variables := alistSet s.scope_variables scope_name ([("this", 0)] ++ plist)
      current_local_offset := 4
      local_variables := [("this", 0)] ++ plist }
    let s2 := emit s1 "FUNCTION init:"
    { s2 with
      current_function := s2.function_stack.getLast?
      scope_depth := s2.scope_depth - 1 }

/-- A generator state that has already created two temporaries in global
    code and sits inside class C. -/
def exInitState : GenState :=
  { exGlobalState with temp_counter := 2, current_class := some "C" }

/-- Claim C9 counterexample: entering an init constructor body does not
    reset the temporary counter: from counter value 2 the first
    temporary created inside init is t2, not t0. -/
theorem c9_init_no_reset_counterexample :
    (enterInitMethod { params := [] } exInitState).temp_counter = 2 ∧
    (new_temp (enterInitMethod { params := [] } exInitState)).1 = "t2" ∧
    (decide ((new_temp (enterInitMethod { params := [] } exInitState)).1 = "t0"))
      = false := by
  refine ⟨by decide, by decide, by decide⟩

theorem newTempRun_from (j : Nat) : ∀ s : GenState,
    (newTempRun j s).1
      = (List.range j).map (fun i => "t" ++ natRepr (s.temp_counter + i)) := by
  induction j with
  | zero => intro s; rfl
  | succ j ih =>
      intro s
      have hstep : (newTempRun (j + 1) s).1
          = ("t" ++ natRepr s.temp_counter)
            :: (newTempRun j { s with temp_counter := s.temp_counter + 1 }).1 := rfl
      rw [hstep, ih { s with temp_counter := s.temp_counter + 1 }]
      rw [List.range_succ_eq_map, List.map_cons, List.map_map]
      have h0 : s.temp_counter + 0 = s.temp_counter := Nat.add_zero _
      rw [h0]
      have htail : List.map
          (fun i => "t" ++ natRepr
            (({ s with temp_counter := s.temp_counter + 1 } : GenState).temp_counter + i))
          (List.range j)
          = List.map ((fun i => "t" ++ natRepr (s.temp_counter + i)) ∘ Nat.succ)
            (List.range j) := by
        apply List.map_congr_left
        intro a _
        simp only [Function.comp_apply]
        show "t" ++ natRepr (s.temp_counter + 1 + a)
          = "t" ++ natRepr (s.temp_counter + (a + 1))
        rw [show s.temp_counter + 1 + a = s.temp_counter + (a + 1) from by omega]
      rw [htail]

/-- Claim C9 (amended): entering a function declaration body resets the
    temporary counter, so a run of fresh temporaries there is t0, t1, ...
    with no gaps; entering an init constructor body leaves the counter
    untouched, so the temporaries of an init body continue from the
    current counter value instead of restarting at t0. -/
theorem c9_temp_counter_reset :
    (∀ (ctx : FunctionDeclCtx) (s : GenState) (fn : String),
      ctx.identifier = some fn →
      (enterFunctionDeclaration ctx s).temp_counter = 0) ∧
    (∀ (s : GenState) (j : Nat), s.temp_counter = 0 →
      (newTempRun j s).1 = (List.range j).map (fun i => "t" ++ natRepr i)) ∧
    (∀ (ctx : InitMethodCtx) (s : GenState),
      (enterInitMethod ctx s).temp_counter = s.temp_counter) := by
  refine ⟨?_, ?_, ?_⟩
  · intro ctx s fn h
    simp only [enterFunctionDeclaration, h]
    rw [(emit_preserves _ _).1]
  · intro s j h
    rw [newTempRun_from j s, h]
    apply List.map_congr_left
    intro a _
    rw [Nat.zero_add]
  · intro ctx s
    by_cases h : isTruthyStr s.current_class = false
    · unfold enterInitMethod
      rw [h, if_pos rfl]
    · have h2 : isTruthyStr s.current_class = true := by
        cases hb : isTruthyStr s.current_class
        · exact absurd hb h
        · rfl
      unfold enterInitMethod
      rw [h2, if_neg (by decide : ¬ (true = false))]
      show (emit _ _).temp_counter = s.temp_counter
      rw [(emit_preserves _ _).1]

/-- Witness for C9: a function entry resets to 0, a fresh run yields
    t0 and t1, and the init entry keeps the counter at 2. -/
theorem c9_temp_counter_reset_witness :
    (enterFunctionDeclaration { identifier := some "f", params := [] }
        exInitState).temp_counter = 0 ∧
    (newTempRun 2 exGlobalState).1
      = (List.range 2).map (fun i => "t" ++ natRepr i) ∧
    (enterInitMethod { params := [] } exInitState).temp_counter
      = exInitState.temp_counter :=
  ⟨c9_temp_counter_reset.1 { identifier := some "f", params := [] } exInitState
      "f" rfl,
   c9_temp_counter_reset.2.1 exGlobalState 2 rfl,
   c9_temp_counter_reset.2.2 { params := [] } exInitState⟩

end CompiTAC

/- ===================== Semantic analyzer error reporting (C1) ========== -/

namespace CompiSem

/-- The three diagnostic lists reachable from a SemanticAnalyzer: its own
    errors, symbol_table.errors and expression_evaluator.errors. -/
structure AnalyzerState where
  errors : List String
  symtab_errors : List String
  eval_errors : List String

/-- The seen-set loop of the merging get_errors: keep the first occurrence
    of each message, drop later duplicates. -/
def dedup_first (seen : List String) : List String → List String
  | [] => []
  | e :: rest =>
      if seen.contains e then dedup_first seen rest
      else e :: dedup_first (e :: seen) rest

/-- SemanticAnalyzer.get_errors, the earlier definition (lines 701-724):
    merge own, symbol-table and evaluator diagnostics in that order,
    removing duplicate messages, preserving first-occurrence order.  At
    runtime Python discards this definition in favour of the later one. -/
def get_errors_shadowed (s : AnalyzerState) : List String :=
  dedup_first [] (s.errors ++ s.symtab_errors ++ s.eval_errors)

/-- SemanticAnalyzer.has_errors, the earlier definition (lines 695-699):
    true when any of the three lists is non-empty. -/
def has_errors_shadowed (s : AnalyzerState) : Bool :=
  decide (0 < s.errors.length) || decide (0 < s.symtab_errors.length)
    || decide (0 < s.eval_errors.length)

/-- SemanticAnalyzer.get_errors, the later definition (lines 924-926),
    the one Python actually binds to the class: a copy of only the
    analyzer own list, with no merging and no deduplication. -/
def get_errors (s : AnalyzerState) : List String := s.errors

/-- SemanticAnalyzer.has_errors, the later effective definition
    (lines 920-922): only the analyzer own list is consulted. -/
def has_errors (s : AnalyzerState) : Bool := decide (0 < s.errors.length)

/-- An analysis run whose only diagnostic was recorded by the symbol
    table (for example a duplicate declaration). -/
def exAnalyzer : AnalyzerState :=
  { errors := []
    symtab_errors := ["Line 1:0 - Duplicate symbol: x"]
    eval_errors := [] }

/-- Claim C1: the later duplicate definition of get_errors/has_errors
    shadows the merging one, so on a run whose only diagnostic sits in
    the symbol table the analyzer reports no errors at all, while the
    shadowed merging definition would have reported it. -/
theorem c1_effective_get_errors_drops_merge :
    get_errors exAnalyzer = [] ∧
    has_errors exAnalyzer = false ∧
    get_errors_shadowed exAnalyzer = ["Line 1:0 - Duplicate symbol: x"] ∧
    has_errors_shadowed exAnalyzer = true := by
  refine ⟨rfl, rfl, rfl, rfl⟩

end CompiSem

/- ===================== Expression evaluator (C2 of the spec) =========== -/

namespace CompiEval

/-- SymbolTable.py SymbolType enum. -/
inductive SymbolType where
  | integer
  | string
  | float
  | boolean
  | null
  | array
  | function
  | cls
  | void
deriving DecidableEq

/-- The .value string of each enum member (cls stands for CLASS). -/
def SymbolType.value : SymbolType → String
  | .integer => "integer"
  | .string => "string"
  | .float => "float"
  | .boolean => "boolean"
  | .null => "null"
  | .array => "array"
  | .function => "function"
  | .cls => "class"
  | .void => "void"

/-- ExpressionEvaluator.add_error message shape: Line line:column - msg. -/
def fmtError (line col : Nat) (message : String) : String :=
  "Line " ++ natRepr line ++ ":" ++ natRepr col ++ " - " ++ message

/-- The operand loop of ExpressionEvaluator.evaluate_additive_expr.  The
    types the multiplicative subexpressions evaluated to are passed in
    paired with the operator token text between them; the loop folds from
    the left exactly as the Python for-loop does, emitting the add-error
    message and demoting the running type to null on every rejected
    combination. -/
def evaluate_additive_chain (line col : Nat) (left : SymbolType) :
    List (String × SymbolType) → SymbolType × List String
  | [] => (left, [])
  | (op, right) :: rest =>
      let step : SymbolType × Option String :=
        if op = "+" then
          if left = .integer ∧ right = .integer then (.integer, none)
          else if left = .string ∧ right = .string then (.string, none)
          else (.null, some ("Cannot add " ++ left.value ++ " and " ++
            right.value ++ ". Only integer+integer or string+string are allowed."))
        else
          if ¬ left = .integer ∨ ¬ right = .integer then
            (.null, some ("Subtraction requires integers, got " ++
              left.value ++ " and " ++ right.value))
          else (left, none)
      let tail := evaluate_additive_chain line col step.1 rest
      (tail.1, (match step.2 with
        | some m => [fmtError line col m]
        | none => []) ++ tail.2)

/-- ExpressionEvaluator.evaluate_additive_expr over the types of its
    multiplicative children and the operator tokens between them; a
    single child delegates with no diagnostics. -/
def evaluate_additive_expr (line col : Nat) (childTypes : List SymbolType)
    (ops : List String) : SymbolType × List String :=
  match childTypes with
  | [] => (.null, [])
  | [t] => (t, [])
  | t :: rest => evaluate_additive_chain line col t (ops.zip rest)

/-- The operand loop of ExpressionEvaluator.evaluate_logical_or_expr:
    result starts as boolean and every non-boolean operand emits a
    diagnostic and demotes the result to null. -/
def or_operand_loop (line col : Nat) (result : SymbolType) :
    List SymbolType → SymbolType × List String
  | [] => (result, [])
  | t :: rest =>
      if ¬ t = .boolean then
        let tail := or_operand_loop line col .null rest
        (tail.1,
          fmtError line col ("Logical OR operand must be boolean, got " ++ t.value)
            :: tail.2)
      else or_operand_loop line col result rest

/-- ExpressionEvaluator.evaluate_logical_or_expr over the types of its
    logical-and children; a single child delegates with no diagnostics. -/
def evaluate_logical_or_expr (line col : Nat) (childTypes : List SymbolType) :
    SymbolType × List String :=
  match childTypes with
  | [] => (.null, [])
  | [t] => (t, [])
  | ts => or_operand_loop line col .boolean ts

/-- Claim C4 counterexample: with the right operand already resolved to
    null, the enclosing additive node still emits a fresh diagnostic
    (and so does a logical-or node over a null operand), contradicting
    the claimed suppression of cascade diagnostics. -/
theorem c4_null_cascade_counterexample :
    (evaluate_additive_expr 1 2 [.integer, .null] ["+"]).2
      = [fmtError 1 2
          "Cannot add integer and null. Only integer+integer or string+string are allowed."] ∧
    (decide ((evaluate_additive_expr 1 2 [.integer, .null] ["+"]).2 = [])) = false ∧
    (evaluate_logical_or_expr 3 4 [.null, .boolean]).2
      = [fmtError 3 4 "Logical OR operand must be boolean, got null"] := by
  refine ⟨rfl, by decide, rfl⟩

theorem or_operand_loop_null_result (line col : Nat) :
    ∀ ts : List SymbolType,
      (or_operand_loop line col .null ts).1 = SymbolType.null := by
  intro ts
  induction ts with
  | nil => rfl
  | cons t rest ih =>
      by_cases h : t = SymbolType.boolean
      · subst h
        simpa [or_operand_loop] using ih
      · simp only [or_operand_loop, h, not_false_iff, if_pos, not_true]
        simpa using ih

theorem or_operand_loop_mem_null (line col : Nat) :
    ∀ (ts : List SymbolType) (res : SymbolType), SymbolType.null ∈ ts →
      (or_operand_loop line col res ts).1 = SymbolType.null ∧
      0 < (or_operand_loop line col res ts).2.length := by
  intro ts
  induction ts with
  | nil => intro res h; cases h
  | cons t rest ih =>
      intro res hmem
      by_cases h : t = SymbolType.boolean
      · have hrest : SymbolType.null ∈ rest := by
          rcases List.mem_cons.mp hmem with h1 | h1
          · exact absurd (h1 ▸ h) (by decide)
          · exact h1
        subst h
        simpa [or_operand_loop] using ih res hrest
      · constructor
        · simp only [or_operand_loop, h, not_false_iff, if_pos]
          exact or_operand_loop_null_result line col rest
        · simp [or_operand_loop, h]

/-- Claim C4 (amended): a null subexpression is not suppressed: an
    additive node whose left or right operand resolved to null emits
    exactly one fresh diagnostic and itself results in null, and a
    logical-or node over operand types containing null emits at least
    one fresh diagnostic and results in null. -/
theorem c4_null_operand_emits_diagnostic :
    (∀ line col l r op, (op = "+" ∨ op = "-") →
      (l = SymbolType.null ∨ r = SymbolType.null) →
      (evaluate_additive_expr line col [l, r] [op]).1 = SymbolType.null ∧
      (evaluate_additive_expr line col [l, r] [op]).2.length = 1) ∧
    (∀ line col ts, SymbolType.null ∈ ts → 2 ≤ ts.length →
      (evaluate_logical_or_expr line col ts).1 = SymbolType.null ∧
      0 < (evaluate_logical_or_expr line col ts).2.length) := by
  constructor
  · intro line col l r op hop hnull
    have hstep : ∀ res : SymbolType × List String, res.1 = SymbolType.null →
        res.2.length = 1 → res.1 = SymbolType.null ∧ res.2.length = 1 :=
      fun _ h1 h2 => ⟨h1, h2⟩
    rcases hop with hop | hop <;> subst hop <;>
      rcases hnull with h | h <;> subst h <;>
      · constructor <;>
          simp [evaluate_additive_expr, evaluate_additive_chain]
  · intro line col ts hmem hlen
    match ts, hmem, hlen with
    | t1 :: t2 :: rest, hmem, _ =>
        exact or_operand_loop_mem_null line col (t1 :: t2 :: rest) .boolean hmem

/-- Witness for C4 at concrete operands: integer + null and a logical-or
    list containing null. -/
theorem c4_null_operand_emits_diagnostic_witness :
    ((evaluate_additive_expr 0 0 [.integer, .null] ["-"]).1 = SymbolType.null ∧
      (evaluate_additive_expr 0 0 [.integer, .null] ["-"]).2.length = 1) ∧
    ((evaluate_logical_or_expr 0 0 [.boolean, .null]).1 = SymbolType.null ∧
      0 < (evaluate_logical_or_expr 0 0 [.boolean, .null]).2.length) :=
  ⟨c4_null_operand_emits_diagnostic.1 0 0 .integer .null "-"
      (Or.inr rfl) (Or.inr rfl),
    c4_null_operand_emits_diagnostic.2 0 0 [.boolean, .null]
      (by decide) (by decide)⟩

end CompiEval

/- ===================== MIPS generator (C5 of the spec) ================= -/

namespace CompiMIPS

/-- MIPSGenerator register pools. -/
def TEMP_REGISTERS : List String :=
  ["$t0", "$t1", "$t2", "$t3", "$t4", "$t5", "$t6", "$t7", "$t8", "$t9"]

def SAVED_REGISTERS : List String :=
  ["$s0", "$s1", "$s2", "$s3", "$s4", "$s5", "$s6", "$s7"]

def ARG_REGISTERS : List String := ["$a0", "$a1", "$a2", "$a3"]

/-- Value of a run of decimal digit characters. -/
def digitsToNat (ds : List Char) : Nat :=
  ds.foldl (fun acc c => acc * 10 + (c.toNat - 48)) 0

/-- One attempted match of the regular expression fp[(-digits)] at the
    current position: the literals f p [ -, then one or more digits,
    then the closing bracket. -/
def matchParamAt : List Char → Option Nat
  | 'f' :: 'p' :: '[' :: '-' :: rest =>
      let ds := rest.takeWhile Char.isDigit
      if ds.isEmpty then none
      else
        match rest.drop ds.length with
        | ']' :: _ => some (digitsToNat ds)
        | _ => none
  | _ => none

/-- re.search: scan candidate start positions left to right. -/
def searchParam : List Char → Option Nat
  | [] => none
  | c :: rest =>
      match matchParamAt (c :: rest) with
      | some k => some k
      | none => searchParam rest

/-- MIPSGenerator._extract_param_index: the absolute value of the number
    captured by the first match of fp[-N] in the operand text. -/
def extract_param_index (operand : String) : Option Nat :=
  searchParam operand.data

/-- Where a parameter value lives for the MIPS emitter: directly in an
    argument register, or loaded from an offset off the frame pointer
    into a scratch temporary on use. -/
inductive ParamLoc where
  | reg (r : String)
  | stackLoad (offset : Int)
deriving DecidableEq

/-- MIPSGenerator._get_parameter_location: indices 1..4 map onto the
    argument registers; larger indices are fetched from the stack at
    (param_index - 4) * 4 + 8 off the frame pointer. -/
def get_parameter_location (param_index : Int) : ParamLoc :=
  if param_index ≤ 4 then
    let argRegIndex := param_index - 1
    if 0 ≤ argRegIndex ∧ argRegIndex < 4 then
      .reg (ARG_REGISTERS.getD argRegIndex.toNat "")
    else .stackLoad ((param_index - 4) * 4 + 8)
  else .stackLoad ((param_index - 4) * 4 + 8)

theorem takeWhile_digits_append (ds : List Char)
    (hd : ∀ c ∈ ds, c.isDigit = true) :
    (ds ++ [']']).takeWhile Char.isDigit = ds := by
  induction ds with
  | nil => decide
  | cons c cs ih =>
      have hc : c.isDigit = true := hd c (List.mem_cons_self c cs)
      simp only [List.cons_append, List.takeWhile_cons, hc, if_true]
      rw [ih (fun x hx => hd x (List.mem_cons_of_mem c hx))]

/-- Claim C7: an operand of the shape fp[-k] (a minus sign and a digit
    run denoting k >= 1) extracts to parameter index k; indices 1..4
    materialize as argument register a(k-1), and indices above 4 as the
    stack slot 4*(k-4)+8 off the frame pointer, loaded into a scratch
    temporary on use. -/
theorem c7_param_mapping (k : Nat) (ds : List Char)
    (hds : ds ≠ []) (hdig : ∀ c ∈ ds, c.isDigit = true)
    (hval : digitsToNat ds = k) (hk : 1 ≤ k) (s : String)
    (hs : s.data = 'f' :: 'p' :: '[' :: '-' :: (ds ++ [']'])) :
    extract_param_index s = some k ∧
    (k ≤ 4 → get_parameter_location (k : Int)
      = ParamLoc.reg ("$a" ++ natRepr (k - 1))) ∧
    (4 < k → get_parameter_location (k : Int)
      = ParamLoc.stackLoad (4 * ((k : Int) - 4) + 8)) := by
  refine ⟨?_, ?_, ?_⟩
  · show searchParam s.data = some k
    rw [hs]
    show (match matchParamAt ('f' :: 'p' :: '[' :: '-' :: (ds ++ [']'])) with
      | some k => some k
      | none => searchParam ('p' :: '[' :: '-' :: (ds ++ [']']))) = some k
    have hmatch : matchParamAt ('f' :: 'p' :: '[' :: '-' :: (ds ++ [']'])) = some k := by
      show (let dd := (ds ++ [']']).takeWhile Char.isDigit
        if dd.isEmpty then none
        else match (ds ++ [']']).drop dd.length with
          | ']' :: _ => some (digitsToNat dd)
          | _ => none) = some k
      rw [takeWhile_digits_append ds hdig]
      have hne : ds.isEmpty = false := by
        cases ds with
        | nil => exact absurd rfl hds
        | cons a as => rfl
      have hdrop : List.drop ds.length (ds ++ [']']) = [']'] :=
        List.drop_left ds [']']
      simp [hne, hdrop, hval]
    rw [hmatch]
  · intro hk4
    have hcase : k = 1 ∨ k = 2 ∨ k = 3 ∨ k = 4 := by omega
    rcases hcase with h | h | h | h <;> subst h <;> decide
  · intro hk5
    have h4 : ¬ ((k : Int) ≤ 4) := by
      have : (4 : Int) < (k : Int) := by exact_mod_cast hk5
      omega
    unfold get_parameter_location
    rw [if_neg h4]
    ring_nf

/-- Witness for C7 at the operand fp[-2]. -/
theorem c7_param_mapping_witness :
    extract_param_index "fp[-2]" = some 2 ∧
    ((2 : Nat) ≤ 4 → get_parameter_location ((2 : Nat) : Int)
      = ParamLoc.reg ("$a" ++ natRepr (2 - 1))) ∧
    (4 < (2 : Nat) → get_parameter_location ((2 : Nat) : Int)
      = ParamLoc.stackLoad (4 * (((2 : Nat) : Int)- 4) + 8)) :=
  c7_param_mapping 2 ['2'] (by decide) (by decide) (by decide) (by decide)
    "fp[-2]" rfl

/-- The MIPSGenerator state touched by register allocation: the two
    descriptors, the free/used register sets, the legacy variable_map,
    spill-slot bookkeeping, the next-use table and the instruction
    cursor.  next_use values are optional because pass 1 stores None for
    operands with no later use. -/
structure MState where
  register_free : List String
  register_used : List String
  used_saved_registers : List String
  register_descriptor : List (String × List String)
  variable_descriptor : List (String × String)
  variable_map : List (String × String)
  stack_variables : List (String × Nat)
  stack_offset : Nat
  frame_size : Nat
  next_use : List (String × Option Nat)
  current_instruction_index : Int
  emitted : List String

/-- Python next_use.get(var, None): None when the key is absent or the
    stored value is None. -/
def nuGet (s : MState) (v : String) : Option Nat :=
  (alistGet? s.next_use v).getD none

/-- MIPSGenerator._is_register: a truthy string beginning with the
    dollar sign. -/
def is_register (location : String) : Bool :=
  !location.isEmpty && pyStartsWith location "$"

/-- The accumulator loop of _calculate_spill_cost: the outer none means
    the loop early-returned because some variable has no next use;
    some acc carries the running minimum, whose inner none stands for the
    initial infinity. -/
def spillCostLoop (s : MState) : List String → Option Nat → Option (Option Nat)
  | [], acc => some acc
  | v :: vs, acc =>
      match nuGet s v with
      | none => none
      | some n =>
          spillCostLoop s vs (some (match acc with
            | none => n
            | some m => min m n))

/-- MIPSGenerator._calculate_spill_cost: 1000 for an absent or empty
    descriptor entry, 10000 as soon as one variable has no next use,
    otherwise the distance from the current instruction to the MINIMUM
    next use over the variables held in the register, clamped at 0. -/
def calculate_spill_cost (s : MState) (register : String) : Int :=
  match alistGet? s.register_descriptor register with
  | none => 1000
  | some vars =>
      if vars.isEmpty then 1000
      else
        match spillCostLoop s vars none with
        | none => 10000
        | some none => 10000
        | some (some m) => max 0 ((m : Int) - s.current_instruction_index)

/-- Keep the pair with the larger cost, the earlier one on ties: the
    head of the stable descending sort the Python performs. -/
def pickMax (best q : String × Int) : String × Int :=
  if best.2 < q.2 then q else best

/-- Head of the stable sort by descending cost. -/
def firstMaxBySnd : List (String × Int) → Option (String × Int)
  | [] => none
  | p :: rest => some (rest.foldl pickMax p)

/-- MIPSGenerator._select_register_for_spilling: collect used registers
    of the preferred pool with their spill cost, fall back to the other
    pool with a +100 penalty on saved registers, return the register of
    highest cost (or the first temporary when nothing is used). -/
def select_register_for_spilling (s : MState) (prefer_temp : Bool) : String :=
  let register_pool := if prefer_temp then TEMP_REGISTERS else SAVED_REGISTERS
  let candidates := (register_pool.filter (fun r => s.register_used.contains r)).map
      (fun r => (r, calculate_spill_cost s r))
  let candidates :=
    if candidates.isEmpty then
      let other_pool := if prefer_temp then SAVED_REGISTERS else TEMP_REGISTERS
      (other_pool.filter (fun r => s.register_used.contains r)).map
        (fun r => (r, calculate_spill_cost s r +
          (if SAVED_REGISTERS.contains r then 100 else 0)))
    else candidates
  match firstMaxBySnd candidates with
  | none => "$t0"
  | some p => p.1

/-- MIPSGenerator._allocate_free_register: first free register of the
    preferred pool, then of the other pool; marks it used and clears its
    descriptor entry. -/
def allocate_free_register (s : MState) (prefer_temp : Bool) :
    Option (String × MState) :=
  if prefer_temp then
    match TEMP_REGISTERS.find? (fun r => s.register_free.contains r) with
    | some reg => some (reg,
        { s with register_free := setErase s.register_free reg
                 register_used := setInsert s.register_used reg
                 register_descriptor := alistSet s.register_descriptor reg [] })
    | none =>
        match SAVED_REGISTERS.find? (fun r => s.register_free.contains r) with
        | some reg => some (reg,
            { s with register_free := setErase s.register_free reg
                     register_used := setInsert s.register_used reg
                     used_saved_registers := setInsert s.used_saved_registers reg
                     register_descriptor := alistSet s.register_descriptor reg [] })
        | none => none
  else
    match SAVED_REGISTERS.find? (fun r => s.register_free.contains r) with
    | some reg => some (reg,
        { s with register_free := setErase s.register_free reg
                 register_used := setInsert s.register_used reg
                 used_saved_registers := setInsert s.used_saved_registers reg
                 register_descriptor := alistSet s.register_descriptor reg [] })
    | none =>
        match TEMP_REGISTERS.find? (fun r => s.register_free.contains r) with
        | some reg => some (reg,
            { s with register_free := setErase s.register_free reg
                     register_used := setInsert s.register_used reg
                     register_descriptor := alistSet s.register_descriptor reg [] })
        | none => none

/-- MIPSGenerator._assign_register_to_variable: add the variable to the
    register descriptor entry, point the variable descriptor at the
    register, mark it used. -/
def assign_register_to_variable (s : MState) (register var0 : String) : MState :=
  let existing := (alistGet? s.register_descriptor register).getD []
  { s with
    register_descriptor :=
      alistSet s.register_descriptor register (setInsert existing var0)
    variable_descriptor := alistSet s.variable_descriptor var0 register
    register_used := setInsert s.register_used register
    register_free := setErase s.register_free register }

/-- Stack-slot text -offset($fp). -/
def stackLocStr (off : Nat) : String := "-" ++ natRepr off ++ "($fp)"

/-- MIPSGenerator._allocate_stack_location: reuse an existing slot or
    grow the stack by 4, record the slot and point the variable
    descriptor at it. -/
def allocate_stack_location (s : MState) (var0 : String) : String × MState :=
  match alistGet? s.stack_variables var0 with
  | some off => (stackLocStr off, s)
  | none =>
      let so := s.stack_offset + 4
      let s1 : MState := { s with
        stack_offset := so
        frame_size := max s.frame_size so
        stack_variables := alistSet s.stack_variables var0 so }
      (stackLocStr so,
        { s1 with variable_descriptor := alistSet s1.variable_descriptor var0 (stackLocStr so) })

/-- MIPSGenerator._get_stack_location: existing slot text, falling back
    to allocation. -/
def get_stack_location (s : MState) (var0 : String) : String × MState :=
  match alistGet? s.stack_variables var0 with
  | none => allocate_stack_location s var0
  | some off => (stackLocStr off, s)

/-- MIPSGenerator._spill_register_contents: store every variable of the
    register into its stack home, retarget the descriptors, then clear
    the register entry and return the register to the free set. -/
def spill_register_contents (s : MState) (register : String) : MState :=
  match alistGet? s.register_descriptor register with
  | none => s
  | some vars =>
      let s1 := vars.foldl (fun st v =>
        let res :=
          if alistHas st.stack_variables v then get_stack_location st v
          else allocate_stack_location st v
        let st1 := res.2
        { st1 with
          emitted := st1.emitted ++
            ["sw " ++ register ++ ", " ++ res.1 ++ "  # Spill " ++ v]
          variable_descriptor := alistSet st1.variable_descriptor v res.1
          variable_map := alistSet st1.variable_map v res.1 }) s
      { s1 with
        register_descriptor := alistSet s1.register_descriptor register []
        register_used := setErase s1.register_used register
        register_free := setInsert s1.register_free register
        used_saved_registers := setErase s1.used_saved_registers register }

/-- MIPSGenerator.get_register: step 1 returns the register a variable
    already holds when both descriptors still agree; a legacy
    variable_map hit is honoured next; otherwise a free register is
    allocated, or a victim is selected, spilled and reassigned (the
    avoid_spill flag diverts to a stack slot instead).  Note the source
    computes prefer_temp as force_temp or True. -/
def get_register (s : MState) (variable_name : String)
    (force_temp avoid_spill : Bool) : String × MState :=
  let step1 : Option String :=
    match alistGet? s.variable_descriptor variable_name with
    | some location =>
        if is_register location && alistHas s.register_descriptor location
        then some location else none
    | none => none
  match step1 with
  | some r => (r, s)
  | none =>
    let legacy : Option String :=
      match alistGet? s.variable_map variable_name with
      | some location =>
          if pyStartsWith location "$" then some location else none
      | none => none
    match legacy with
    | some r => (r, s)
    | none =>
      match allocate_free_register s (force_temp || true) with
      | some (reg, s1) =>
          let s2 := assign_register_to_variable s1 reg variable_name
          (reg, { s2 with variable_map := alistSet s2.variable_map variable_name reg })
      | none =>
          if avoid_spill then
            let res := allocate_stack_location s variable_name
            (res.1,
              { res.2 with
                variable_map := alistSet res.2.variable_map variable_name res.1 })
          else
            let victim := select_register_for_spilling s (force_temp || true)
            let s1 := spill_register_contents s victim
            let s2 := assign_register_to_variable s1 victim variable_name
            (victim,
              { s2 with
                variable_map := alistSet s2.variable_map variable_name victim })

theorem spillCostLoop_none_of_mem (s : MState) :
    ∀ (vs : List String) (acc : Option Nat),
      (∃ v ∈ vs, nuGet s v = none) → spillCostLoop s vs acc = none := by
  intro vs
  induction vs with
  | nil => intro acc h; rcases h with ⟨v, hv, _⟩; cases hv
  | cons v vs ih =>
      intro acc h
      rw [spillCostLoop]
      cases hnu : nuGet s v with
      | none => rfl
      | some n =>
          rcases h with ⟨w, hw, hwnone⟩
          rcases List.mem_cons.mp hw with h1 | h1
          · rw [h1, hnu] at hwnone; cases hwnone
          · exact ih _ ⟨w, h1, hwnone⟩

theorem spillCostLoop_all_some (s : MState) :
    ∀ (vs : List String) (acc : Option Nat),
      (∀ v ∈ vs, (nuGet s v).isSome = true) →
      spillCostLoop s vs acc = some (vs.foldl (fun a v =>
        some (match a with
          | none => (nuGet s v).getD 0
          | some m => min m ((nuGet s v).getD 0))) acc) := by
  intro vs
  induction vs with
  | nil => intro acc _; rfl
  | cons v vs ih =>
      intro acc h
      have hv := h v (List.mem_cons_self v vs)
      cases hnu : nuGet s v with
      | none => rw [hnu] at hv; cases hv
      | some n =>
          rw [spillCostLoop, hnu]
          simp only [List.foldl_cons, hnu, Option.getD_some]
          exact ih _ (fun w hw => h w (List.mem_cons_of_mem v hw))

theorem spill_fold_min (s : MState) :
    ∀ (vs : List String) (n : Nat),
      List.foldl (fun a v => some (match a with
        | none => (nuGet s v).getD 0
        | some m => min m ((nuGet s v).getD 0))) (some n) vs
      = some (List.foldl (fun m v => min m ((nuGet s v).getD 0)) n vs) := by
  intro vs
  induction vs with
  | nil => intro n; rfl
  | cons v vs ih =>
      intro n
      simp only [List.foldl_cons]
      exact ih _

/-- Minimum of a list of naturals (none on the empty list). -/
def natListMin : List Nat → Option Nat
  | [] => none
  | x :: xs => some (xs.foldl min x)

theorem pickMax_cases (p q : String × Int) : pickMax p q = p ∨ pickMax p q = q := by
  unfold pickMax; split
  · exact Or.inr rfl
  · exact Or.inl rfl

theorem pickMax_le_left (p q : String × Int) : p.2 ≤ (pickMax p q).2 := by
  unfold pickMax; split <;> omega

theorem pickMax_le_right (p q : String × Int) : q.2 ≤ (pickMax p q).2 := by
  unfold pickMax; split <;> omega

theorem foldl_pickMax_mem : ∀ (rest : List (String × Int)) (p : String × Int),
    rest.foldl pickMax p ∈ p :: rest := by
  intro rest
  induction rest with
  | nil => intro p; exact List.mem_cons_self p []
  | cons q rest ih =>
      intro p
      rw [List.foldl_cons]
      rcases List.mem_cons.mp (ih (pickMax p q)) with h1 | h1
      · rcases pickMax_cases p q with h2 | h2
        · rw [h1, h2]; exact List.mem_cons_self p (q :: rest)
        · rw [h1, h2]; exact List.mem_cons_of_mem p (List.mem_cons_self q rest)
      · exact List.mem_cons_of_mem p (List.mem_cons_of_mem q h1)

theorem foldl_pickMax_ge_start :
    ∀ (rest : List (String × Int)) (p : String × Int),
      p.2 ≤ (rest.foldl pickMax p).2 := by
  intro rest
  induction rest with
  | nil => intro p; exact le_refl _
  | cons q rest ih =>
      intro p
      rw [List.foldl_cons]
      exact le_trans (pickMax_le_left p q) (ih (pickMax p q))

theorem foldl_pickMax_ge :
    ∀ (rest : List (String × Int)) (p x : String × Int),
      x ∈ p :: rest → x.2 ≤ (rest.foldl pickMax p).2 := by
  intro rest
  induction rest with
  | nil =>
      intro p x hx
      rcases List.mem_cons.mp hx with h | h
      · rw [h]; exact le_refl _
      · cases h
  | cons q rest ih =>
      intro p x hx
      rw [List.foldl_cons]
      rcases List.mem_cons.mp hx with h | h
      · rw [h]; exact le_trans (pickMax_le_left p q) (foldl_pickMax_ge_start rest _)
      · rcases List.mem_cons.mp h with h1 | h1
        · rw [h1]; exact le_trans (pickMax_le_right p q) (foldl_pickMax_ge_start rest _)
        · exact ih (pickMax p q) x (List.mem_cons_of_mem _ h1)

theorem mem_map_pair {f : String → Int} {l : List String} {p : String × Int}
    (h : p ∈ l.map (fun r => (r, f r))) : p.1 ∈ l ∧ p.2 = f p.1 := by
  obtain ⟨a, ha, hpa⟩ := List.mem_map.mp h
  subst hpa
  exact ⟨ha, rfl⟩

/-- Claim C3 (amended): the spill cost of a register holding at least one
    variable is 10000 as soon as some variable in it has no next use, and
    otherwise max 0 of (the MINIMUM next use over its variables minus the
    current instruction index); the register spilled is one of the used
    registers of the preferred temporary pool achieving the highest cost. -/
theorem c3_spill_cost_and_selection :
    (∀ (s : MState) (register : String) (vars : List String),
      alistGet? s.register_descriptor register = some vars → vars ≠ [] →
      ((vars.any (fun v => (nuGet s v).isNone) = true →
          calculate_spill_cost s register = 10000) ∧
       (vars.all (fun v => (nuGet s v).isSome) = true →
          ∃ m, natListMin (vars.map (fun v => (nuGet s v).getD 0)) = some m ∧
            calculate_spill_cost s register
              = max 0 ((m : Int) - s.current_instruction_index)))) ∧
    (∀ s : MState,
      TEMP_REGISTERS.filter (fun r => s.register_used.contains r) ≠ [] →
      select_register_for_spilling s true
          ∈ TEMP_REGISTERS.filter (fun r => s.register_used.contains r) ∧
      ∀ r2 ∈ TEMP_REGISTERS.filter (fun r => s.register_used.contains r),
        calculate_spill_cost s r2
          ≤ calculate_spill_cost s (select_register_for_spilling s true)) := by
  constructor
  · intro s register vars hget hne
    have hie : vars.isEmpty = false := by
      cases vars with
      | nil => exact absurd rfl hne
      | cons a as => rfl
    constructor
    · intro hany
      rcases List.any_eq_true.mp hany with ⟨v, hv, hvn⟩
      have hvnone : nuGet s v = none := Option.isNone_iff_eq_none.mp hvn
      unfold calculate_spill_cost
      rw [hget]
      simp only [hie, Bool.false_eq_true, if_false]
      rw [spillCostLoop_none_of_mem s vars none ⟨v, hv, hvnone⟩]
    · intro hall
      have hall2 : ∀ v ∈ vars, (nuGet s v).isSome = true :=
        fun v hv => List.all_eq_true.mp hall v hv
      cases vars with
      | nil => exact absurd rfl hne
      | cons v vs =>
          unfold calculate_spill_cost
          rw [hget]
          simp only [List.isEmpty_cons, Bool.false_eq_true, if_false]
          rw [spillCostLoop_all_some s (v :: vs) none hall2]
          simp only [List.foldl_cons]
          rw [spill_fold_min s vs ((nuGet s v).getD 0)]
          refine ⟨List.foldl (fun m w => min m ((nuGet s w).getD 0))
            ((nuGet s v).getD 0) vs, ?_, rfl⟩
          show some (List.foldl min ((nuGet s v).getD 0)
                (vs.map (fun w => (nuGet s w).getD 0)))
              = some (List.foldl (fun m w => min m ((nuGet s w).getD 0))
                ((nuGet s v).getD 0) vs)
          rw [List.foldl_map]
  · intro s hne
    cases hc : TEMP_REGISTERS.filter (fun r => s.register_used.contains r) with
    | nil => exact absurd hc hne
    | cons c cs =>
        have hsel : select_register_for_spilling s true
            = ((cs.map (fun r => (r, calculate_spill_cost s r))).foldl pickMax
                (c, calculate_spill_cost s c)).1 := by
          unfold select_register_for_spilling
          simp only [if_true, hc, List.map_cons, List.isEmpty_cons]
          rfl
        have hbest := foldl_pickMax_mem
          (cs.map (fun r => (r, calculate_spill_cost s r)))
          (c, calculate_spill_cost s c)
        have hbestmem : (cs.map (fun r => (r, calculate_spill_cost s r))).foldl pickMax
            (c, calculate_spill_cost s c)
            ∈ (c :: cs).map (fun r => (r, calculate_spill_cost s r)) := by
          simpa [List.map_cons] using hbest
        have hbp := mem_map_pair hbestmem
        constructor
        · rw [hsel]; exact hbp.1
        · intro r2 hr2
          have hmem2 : (r2, calculate_spill_cost s r2)
              ∈ (c, calculate_spill_cost s c)
                :: cs.map (fun r => (r, calculate_spill_cost s r)) := by
            have : (r2, calculate_spill_cost s r2)
                ∈ (c :: cs).map (fun r => (r, calculate_spill_cost s r)) :=
              List.mem_map.mpr ⟨r2, hr2, rfl⟩
            simpa [List.map_cons] using this
          have hle := foldl_pickMax_ge
            (cs.map (fun r => (r, calculate_spill_cost s r)))
            (c, calculate_spill_cost s c)
            (r2, calculate_spill_cost s r2) hmem2
          calc calculate_spill_cost s r2
              ≤ ((cs.map (fun r => (r, calculate_spill_cost s r))).foldl pickMax
                  (c, calculate_spill_cost s c)).2 := hle
            _ = calculate_spill_cost s
                  (((cs.map (fun r => (r, calculate_spill_cost s r))).foldl pickMax
                    (c, calculate_spill_cost s c)).1) := hbp.2
            _ = calculate_spill_cost s (select_register_for_spilling s true) := by
                  rw [hsel]

/-- A register holding two live variables with next uses 5 and 10 at
    instruction index 0. -/
def exSpill : MState :=
  { register_free := [], register_used := ["$t0"], used_saved_registers := []
    register_descriptor := [("$t0", ["a", "b"])]
    variable_descriptor := [("a", "$t0"), ("b", "$t0")]
    variable_map := [], stack_variables := [], stack_offset := 0, frame_size := 0
    next_use := [("a", some 5), ("b", some 10)]
    current_instruction_index := 0
    emitted := [] }

/-- A register holding one variable with no next use. -/
def exSpillNoUse : MState :=
  { register_free := [], register_used := ["$t0"], used_saved_registers := []
    register_descriptor := [("$t0", ["a"])]
    variable_descriptor := [("a", "$t0")]
    variable_map := [], stack_variables := [], stack_offset := 0, frame_size := 0
    next_use := [("a", none)]
    current_instruction_index := 0
    emitted := [] }

/-- The spill-cost formula exactly as claim C3 words it: the MAXIMUM over
    the variables held in the register of next_use minus the current
    instruction index when every next use is finite, a large constant
    when some variable has no next use. -/
def spill_cost_claim (s : MState) (register : String) : Int :=
  let vars := (alistGet? s.register_descriptor register).getD []
  if vars.any (fun v => (nuGet s v).isNone) then 10000
  else
    match vars.map
      (fun v => ((nuGet s v).getD 0 : Int) - s.current_instruction_index) with
    | [] => 10000
    | d :: ds => ds.foldl max d

/-- Claim C3 counterexample: with next uses 5 and 10 at index 0 the code
    charges cost 5 (the minimum distance), while the claimed maximum
    formula yields 10. -/
theorem c3_spill_cost_counterexample :
    calculate_spill_cost exSpill "$t0" = 5 ∧
    spill_cost_claim exSpill "$t0" = 10 ∧
    (decide (calculate_spill_cost exSpill "$t0"
      = spill_cost_claim exSpill "$t0")) = false := by
  refine ⟨by decide, by decide, by decide⟩

/-- Witness for C3 at the two concrete states above. -/
theorem c3_spill_cost_and_selection_witness :
    calculate_spill_cost exSpillNoUse "$t0" = 10000 ∧
    select_register_for_spilling exSpill true
        ∈ TEMP_REGISTERS.filter (fun r => exSpill.register_used.contains r) ∧
    calculate_spill_cost exSpill "$t0"
      ≤ calculate_spill_cost exSpill (select_register_for_spilling exSpill true) :=
  ⟨(c3_spill_cost_and_selection.1 exSpillNoUse "$t0" ["a"] rfl
      (by decide)).1 (by decide),
   (c3_spill_cost_and_selection.2 exSpill (by decide)).1,
   (c3_spill_cost_and_selection.2 exSpill (by decide)).2 "$t0" (by decide)⟩

/-- TACInstruction.py TACOperation (ret stands for RETURN). -/
inductive TOp where
  | assign
  | add
  | sub
  | mul
  | divi
  | modu
  | neg
  | cmpeq
  | cmpne
  | cmplt
  | cmple
  | cmpgt
  | cmpge
  | land
  | lor
  | lnot
  | goto
  | if_false
  | if_true
  | label
  | call
  | ret
  | param
  | array_access
  | array_assign
  | print
  | read
deriving DecidableEq

/-- A parsed TAC instruction as the MIPS generator sees it: its operation
    and the optional comment carrying the FUNCTION / END FUNCTION
    pseudo-markers. -/
structure TInstr where
  op : TOp
  comment : Option String

/-- The test the leaf scan applies to a comment: it contains the text
    FUNCTION name followed by a colon. -/
def hasFuncMarker (name : String) (i : TInstr) : Bool :=
  match i.comment with
  | some c => pyContains c ("FUNCTION " ++ name ++ ":")
  | none => false

/-- The comment contains END FUNCTION. -/
def hasEndMarker (i : TInstr) : Bool :=
  match i.comment with
  | some c => pyContains c "END FUNCTION"
  | none => false

/-- The scanning loop of MIPSGenerator._is_leaf_function: entering the
    function turns the flag on, the first END FUNCTION comment inside
    breaks with a leaf verdict, and a CALL while inside refutes it. -/
def is_leaf_aux (name : String) : Bool → List TInstr → Bool
  | _, [] => true
  | in_function, i :: rest =>
      match i.comment with
      | some c =>
          if pyContains c ("FUNCTION " ++ name ++ ":") then
            if decide (i.op = TOp.call) then false else is_leaf_aux name true rest
          else if pyContains c "END FUNCTION" && in_function then true
          else if in_function && decide (i.op = TOp.call) then false
          else is_leaf_aux name in_function rest
      | none =>
          if in_function && decide (i.op = TOp.call) then false
          else is_leaf_aux name in_function rest

/-- MIPSGenerator._is_leaf_function: empty stream counts as leaf,
    otherwise scan. -/
def is_leaf_function (name : String) (instructions : List TInstr) : Bool :=
  match instructions with
  | [] => true
  | _ => is_leaf_aux name false instructions

/-- MIPSGenerator._emit_function_prologue: the emitted lines and the
    recorded (frame_size, is_leaf) pair.  A leaf function gets only its
    label and a comment, no stack reservation; a non-leaf function
    reserves 8 bytes and stores the return address and old frame
    pointer. -/
def emit_function_prologue (func_name : String) (instructions : List TInstr) :
    List String × Nat × Bool :=
  let is_leaf := is_leaf_function func_name instructions
  if is_leaf then
    (["\n" ++ func_name ++ ":", "# Prologo minimo (leaf function)", ""], 0, true)
  else
    (["\n" ++ func_name ++ ":", "# Prologo",
      "addi $sp, $sp, -8",
      "sw $ra, 4($sp)", "sw $fp, 0($sp)",
      "move $fp, $sp", ""], 8, false)

/-- MIPSGenerator._emit_function_epilogue, driven by the recorded
    is_leaf flag and frame size. -/
def emit_function_epilogue (is_leaf : Bool) (frame_size : Nat) : List String :=
  if is_leaf = true ∧ frame_size = 0 then
    ["\n# Epilogo minimo", "jr $ra", ""]
  else
    ["\n# Epilogo", "lw $ra, 4($sp)", "lw $fp, 0($sp)",
     "addi $sp, $sp, " ++ natRepr frame_size, "jr $ra", ""]

theorem is_leaf_aux_cons_skip (name : String) (i : TInstr) (l : List TInstr)
    (hno : hasFuncMarker name i = false) :
    is_leaf_aux name false (i :: l) = is_leaf_aux name false l := by
  rw [is_leaf_aux]
  cases hcomment : i.comment with
  | none => simp
  | some c =>
      have hc : pyContains c ("FUNCTION " ++ name ++ ":") = false := by
        unfold hasFuncMarker at hno
        rw [hcomment] at hno
        exact hno
      simp [hc]

theorem is_leaf_aux_append_skip (name : String) :
    ∀ (p l : List TInstr), (∀ i ∈ p, hasFuncMarker name i = false) →
      is_leaf_aux name false (p ++ l) = is_leaf_aux name false l := by
  intro p
  induction p with
  | nil => intro l _; rfl
  | cons i p ih =>
      intro l hp
      rw [List.cons_append,
        is_leaf_aux_cons_skip name i (p ++ l) (hp i (List.mem_cons_self i p))]
      exact ih l (fun j hj => hp j (List.mem_cons_of_mem i hj))

theorem is_leaf_aux_body (name : String) (e : TInstr) (rest : List TInstr)
    (he : hasEndMarker e = true) (hef : hasFuncMarker name e = false) :
    ∀ b : List TInstr, (∀ i ∈ b, hasFuncMarker name i = false ∧ hasEndMarker i = false) →
      is_leaf_aux name true (b ++ e :: rest)
        = b.all (fun i => !(decide (i.op = TOp.call))) := by
  intro b
  induction b with
  | nil =>
      intro _
      cases hcomment : e.comment with
      | none =>
          unfold hasEndMarker at he
          rw [hcomment] at he
          cases he
      | some c =>
          have hend : pyContains c "END FUNCTION" = true := by
            unfold hasEndMarker at he
            rw [hcomment] at he
            exact he
          have hfm : pyContains c ("FUNCTION " ++ name ++ ":") = false := by
            unfold hasFuncMarker at hef
            rw [hcomment] at hef
            exact hef
          rw [List.nil_append, is_leaf_aux, hcomment]
          simp [hfm, hend]
  | cons i b ih =>
      intro hb
      have hi := hb i (List.mem_cons_self i b)
      have hrest := ih (fun j hj => hb j (List.mem_cons_of_mem i hj))
      rw [List.cons_append, is_leaf_aux]
      cases hcomment : i.comment with
      | none =>
          by_cases hcall : i.op = TOp.call
          · simp [hcall]
          · simp [hcall, hrest]
      | some c =>
          have hfm : pyContains c ("FUNCTION " ++ name ++ ":") = false := by
            have h1 := hi.1
            unfold hasFuncMarker at h1
            rw [hcomment] at h1
            exact h1
          have hend : pyContains c "END FUNCTION" = false := by
            have h2 := hi.2
            unfold hasEndMarker at h2
            rw [hcomment] at h2
            exact h2
          by_cases hcall : i.op = TOp.call
          · simp [hfm, hend, hcall]
          · simp [hfm, hend, hcall, hrest]

theorem is_leaf_function_ne_nil (name : String) (l : List TInstr) (h : l ≠ []) :
    is_leaf_function name l = is_leaf_aux name false l := by
  cases l with
  | nil => exact absurd rfl h
  | cons x xs => rfl

/-- Claim C6: a function is classified leaf exactly when no CALL occurs
    between its FUNCTION marker and its END FUNCTION marker; a leaf
    function gets no stack-reserving addi prologue and its epilogue is
    exactly the minimal one ending in jr to the return address, while a
    non-leaf function gets the full prologue reserving 8 bytes and
    storing the return address at 4 off sp and the frame pointer at 0. -/
theorem c6_leaf_classification_and_prologue
    (name : String) (p b rest : List TInstr) (m e : TInstr)
    (hp : ∀ i ∈ p, hasFuncMarker name i = false)
    (hm : hasFuncMarker name m = true) (hmop : ¬ m.op = TOp.call)
    (hb : ∀ i ∈ b, hasFuncMarker name i = false ∧ hasEndMarker i = false)
    (he : hasEndMarker e = true) (hef : hasFuncMarker name e = false) :
    (is_leaf_function name (p ++ m :: (b ++ e :: rest))
        = b.all (fun i => !(decide (i.op = TOp.call)))) ∧
    (is_leaf_function name (p ++ m :: (b ++ e :: rest)) = true →
      (∀ line ∈ (emit_function_prologue name (p ++ m :: (b ++ e :: rest))).1,
          pyStartsWith line "addi $sp, $sp, -" = false) ∧
      emit_function_epilogue
          (emit_function_prologue name (p ++ m :: (b ++ e :: rest))).2.2
          (emit_function_prologue name (p ++ m :: (b ++ e :: rest))).2.1
        = ["\n# Epilogo minimo", "jr $ra", ""]) ∧
    (is_leaf_function name (p ++ m :: (b ++ e :: rest)) = false →
      "addi $sp, $sp, -8" ∈ (emit_function_prologue name (p ++ m :: (b ++ e :: rest))).1 ∧
      "sw $ra, 4($sp)" ∈ (emit_function_prologue name (p ++ m :: (b ++ e :: rest))).1 ∧
      "sw $fp, 0($sp)" ∈ (emit_function_prologue name (p ++ m :: (b ++ e :: rest))).1) := by
  have hne : p ++ m :: (b ++ e :: rest) ≠ [] := by
    cases p <;> simp
  refine ⟨?_, ?_, ?_⟩
  · rw [is_leaf_function_ne_nil name _ hne, is_leaf_aux_append_skip name p _ hp]
    obtain ⟨c, hcomment, hcont⟩ :
        ∃ c, m.comment = some c
          ∧ pyContains c ("FUNCTION " ++ name ++ ":") = true := by
      unfold hasFuncMarker at hm
      cases hmc : m.comment with
      | none => rw [hmc] at hm; cases hm
      | some c => rw [hmc] at hm; exact ⟨c, rfl, hm⟩
    rw [is_leaf_aux, hcomment]
    simp only [hcont, if_true, hmop, decide_eq_true_eq, decide_eq_false
      (fun h => hmop h)]
    simp only [Bool.false_eq_true, if_false]
    exact is_leaf_aux_body name e rest he hef b hb
  · intro hleaf
    constructor
    · intro line hline
      simp only [emit_function_prologue, hleaf, if_true] at hline
      have hdata : ("\n" ++ name ++ ":").data = '\n' :: (name.data ++ [':']) := by
        rw [strData_append, strData_append]
        simp
      rcases List.mem_cons.mp hline with h | h
      · rw [h]
        unfold pyStartsWith
        rw [hdata]
        exact isPrefixOf_cons_false 'a' '\n' _ _ (by decide)
      · rcases List.mem_cons.mp h with h1 | h1
        · rw [h1]; decide
        · rcases List.mem_cons.mp h1 with h2 | h2
          · rw [h2]; decide
          · cases h2
    · simp only [emit_function_prologue, hleaf, if_true]
      rfl
  · intro hnonleaf
    simp only [emit_function_prologue, hnonleaf, Bool.false_eq_true, if_false]
    refine ⟨?_, ?_, ?_⟩ <;> simp

/-- The TAC pseudo-instructions of a one-function program: marker,
    body, end marker. -/
def exMarker : TInstr := { op := TOp.label, comment := some "FUNCTION main:" }

def exEndMarker : TInstr := { op := TOp.label, comment := some "END FUNCTION main" }

def exLeafBody : List TInstr := [{ op := TOp.assign, comment := none }]

def exCallBody : List TInstr := [{ op := TOp.call, comment := none }]

/-- Witness for C6: a call-free body is classified leaf, and a body with
    a CALL receives the full prologue. -/
theorem c6_leaf_classification_witness :
    is_leaf_function "main" ([] ++ exMarker :: (exLeafBody ++ exEndMarker :: []))
        = exLeafBody.all (fun i => !(decide (i.op = TOp.call))) ∧
    ("addi $sp, $sp, -8" ∈ (emit_function_prologue "main"
        ([] ++ exMarker :: (exCallBody ++ exEndMarker :: []))).1 ∧
     "sw $ra, 4($sp)" ∈ (emit_function_prologue "main"
        ([] ++ exMarker :: (exCallBody ++ exEndMarker :: []))).1 ∧
     "sw $fp, 0($sp)" ∈ (emit_function_prologue "main"
        ([] ++ exMarker :: (exCallBody ++ exEndMarker :: []))).1) :=
  ⟨(c6_leaf_classification_and_prologue "main" [] exLeafBody [] exMarker exEndMarker
      (by decide) (by decide) (by decide) (by decide) (by decide) (by decide)).1,
   (c6_leaf_classification_and_prologue "main" [] exCallBody [] exMarker exEndMarker
      (by decide) (by decide) (by decide) (by decide) (by decide) (by decide)).2.2
    (by decide)⟩

/-- A state in which variable x is resident in register t0 and both
    descriptors agree. -/
def exRegState : MState :=
  { register_free := [], register_used := ["$t0"], used_saved_registers := []
    register_descriptor := [("$t0", ["x"])]
    variable_descriptor := [("x", "$t0")]
    variable_map := [], stack_variables := [], stack_offset := 0, frame_size := 0
    next_use := [], current_instruction_index := 0, emitted := [] }

/-- Claim C10: get_register is stable for resident variables: when the
    variable descriptor maps v to a register r present in the register
    descriptor, get_register returns r and leaves the whole state
    (descriptors, free/used sets, emitted code) unchanged, so a second
    call returns the same register. -/
theorem c10_get_register_stable (s : MState) (v r : String) (ft av : Bool)
    (h1 : alistGet? s.variable_descriptor v = some r)
    (h2 : is_register r = true)
    (h3 : alistHas s.register_descriptor r = true) :
    get_register s v ft av = (r, s) ∧
    get_register (get_register s v ft av).2 v ft av = (r, s) := by
  have hmain : get_register s v ft av = (r, s) := by
    unfold get_register
    rw [h1]
    simp [h2, h3]
  exact ⟨hmain, by rw [hmain]; exact hmain⟩

/-- Witness for C10 at the concrete resident state. -/
theorem c10_get_register_stable_witness :
    get_register exRegState "x" false false = ("$t0", exRegState) ∧
    get_register (get_register exRegState "x" false false).2 "x" false false
      = ("$t0", exRegState) :=
  c10_get_register_stable exRegState "x" "$t0" false false rfl
    (by decide) (by decide)

end CompiMIPS
